import Mathlib

/-!
# Verification of the psypyenv requirement parser and environment discovery

Shallow embedding of `src/psypyenv/requirements.py` and the target-collection
logic of `src/psypyenv/cli.py`.  Python strings are Lean `String`s; the string
primitives used by the code (`strip`, `lower`, `startswith`, `split`,
substring containment) are modelled below on ASCII input, where they agree
with Python's semantics.  The external `packaging.requirements.Requirement`
parser is an injected parameter `reqParse : String → Option PackagingReq`
(`none` models an `InvalidRequirement` exception); the TOML reader
(`tomllib.loads`) is modelled by handing `_parse_pyproject` the read/parse
outcome directly.  Fallible Python code is embedded in `Except String`,
where `Except.error` models an uncaught exception.
-/

deriving instance DecidableEq for Except

namespace Psypyenv

/-- Model of Python's `str.lower` on one character (ASCII range: `A`-`Z` maps
to `a`-`z`, everything else is unchanged; `str.lower` agrees on ASCII, which
is all the development evaluates). -/
def charLower (c : Char) : Char :=
  if 65 ≤ c.toNat ∧ c.toNat ≤ 90 then Char.ofNat (c.toNat + 32) else c

/-- Model of Python's `str.lower`. -/
def strLower (s : String) : String :=
  String.mk (s.data.map charLower)

/-- Model of Python's `str.strip()` (whitespace from both ends). -/
def pyStrip (s : String) : String :=
  String.mk ((((s.data.dropWhile Char.isWhitespace).reverse).dropWhile
    Char.isWhitespace).reverse)

/-- Model of Python's `str.startswith`. -/
def strStartsWith (s p : String) : Bool :=
  p.data.isPrefixOf s.data

/-- Break a character list at the first occurrence of the separator `sep`:
`some (pre, post)` with the input equal to `pre ++ sep ++ post` and no
occurrence of `sep` inside `pre`, or `none` when `sep` does not occur. -/
def breakOnSub (sep : List Char) : List Char → Option (List Char × List Char)
  | [] => if sep.isEmpty then some ([], []) else none
  | c :: cs =>
    if sep.isPrefixOf (c :: cs) then some ([], (c :: cs).drop sep.length)
    else
      match breakOnSub sep cs with
      | none => none
      | some (pre, post) => some (c :: pre, post)

/-- Fuel-driven worker for `splitOnSub` (structural recursion so that the
kernel can evaluate it; `breakOnSub` shortens the list at every step, so any
fuel above the list length gives the fixpoint). -/
def splitOnSubFuel (s0 : Char) (srest : List Char) :
    Nat → List Char → List (List Char)
  | 0, cs => [cs]
  | fuel+1, cs =>
    match breakOnSub (s0 :: srest) cs with
    | none => [cs]
    | some (pre, post) => pre :: splitOnSubFuel s0 srest fuel post

/-- Model of Python's `str.split(sep)` for a non-empty separator
`s0 :: srest`, on character lists: leftmost-first, non-overlapping. -/
def splitOnSub (s0 : Char) (srest : List Char) (cs : List Char) :
    List (List Char) :=
  splitOnSubFuel s0 srest (cs.length + 1) cs

/-- Model of Python's `str.split(sep)` for a non-empty separator string.
(Python raises `ValueError` on an empty separator; the code never passes
one, and we return `[s]` in that unused case.) -/
def pySplit (sep : String) (s : String) : List String :=
  match sep.data with
  | [] => [s]
  | c :: rest => (splitOnSub c rest s.data).map String.mk

/-- Model of Python's `sub in s` substring containment test. -/
def containsSub (s sub : String) : Bool :=
  (breakOnSub sub.data s.data).isSome

/-- Model of Python's `str.split(None, 1)` on an already-stripped string:
the first whitespace-delimited token, and the remainder after the first
whitespace run when that remainder is non-empty. -/
def splitNone1 (s : String) : List String :=
  let cs := s.data
  let tok := cs.takeWhile (fun c => !c.isWhitespace)
  let rest := ((cs.dropWhile (fun c => !c.isWhitespace)).dropWhile
    (fun c => c.isWhitespace))
  if rest.isEmpty then [String.mk tok] else [String.mk tok, String.mk rest]

/-- `l[1]` on a Python list known to have at least two elements
(the call site guards with a containment test). -/
def getD1 (l : List String) : String :=
  (l.get? 1).getD ""

/-! ## Data model (`src/psypyenv/models.py`, as described by the spec) -/

/-- One version constraint: `(operator, version)`. -/
structure RequirementSpec where
  op : String
  version : String
deriving DecidableEq, Repr

/-- Normalized requirement produced by the parser. -/
structure PackageRequirement where
  name : String
  specs : List RequirementSpec
  marker : Option String
  url : Option String
  original : String
deriving DecidableEq, Repr

/-- Result of the external `packaging.requirements.Requirement` constructor:
name, specifier list, optional marker (already rendered with `str`), and
optional URL.  The constructor itself is injected as
`reqParse : String → Option PackagingReq`, `none` modelling a raised
`InvalidRequirement`. -/
structure PackagingReq where
  name : String
  specifier : List RequirementSpec
  marker : Option String
  url : Option String
deriving DecidableEq, Repr

/-! ## `requirements.py` -/

/-- `_build_requirement` (requirements.py lines 101-108). -/
def _build_requirement (name : String) (specs : List RequirementSpec)
    (original : String) (url : Option String) : PackageRequirement :=
  { name := strLower name
    specs := specs
    marker := none
    url := url
    original := original }

/-- `_parse_standard_requirement` (requirements.py lines 84-98). -/
def _parse_standard_requirement (reqParse : String → Option PackagingReq)
    (requirement original : String) : Except String PackageRequirement :=
  match reqParse requirement with
  | none => Except.error requirement
  | some parsed =>
    Except.ok
      { name := strLower parsed.name
        specs := parsed.specifier
        marker := parsed.marker
        url := parsed.url
        original := original }

/-- `parse_requirement_line` (requirements.py lines 43-62).  The result is
`Except.error` when `InvalidRequirement` is raised, `Except.ok none` when the
Python function returns `None`, and `Except.ok (some (pkg?, extra?))` for a
returned pair. -/
def parse_requirement_line (reqParse : String → Option PackagingReq)
    (line : String) :
    Except String (Option (Option PackageRequirement × Option String)) :=
  let stripped := pyStrip line
  if stripped.data.isEmpty || strStartsWith stripped "#" then
    Except.ok none
  else if strStartsWith stripped "--extra-index-url" then
    match splitNone1 stripped with
    | [_, url] => Except.ok (some (none, some (pyStrip url)))
    | _ => Except.ok (some (none, none))
  else if strStartsWith stripped "--" then
    Except.ok none
  else if strStartsWith stripped "http://" || strStartsWith stripped "https://"
      || strStartsWith stripped "git+" then
    if containsSub stripped "#egg=" then
      let egg_name :=
        pyStrip ((pySplit "&" (getD1 (pySplit "#egg=" stripped))).headD "")
      Except.ok (some (some (_build_requirement egg_name [] stripped
        (some stripped)), none))
    else Except.ok none
  else
    -- `stripped.split("#", 1)[0]`: the text before the first `#`
    let base := pyStrip ((pySplit "#" stripped).headD "")
    if base.data.isEmpty then Except.ok none
    else
      match _parse_standard_requirement reqParse base stripped with
      | Except.error e => Except.error e
      | Except.ok r => Except.ok (some (some r, none))

/-- Loop body of `parse_requirements` (requirements.py lines 26-39): a raised
`InvalidRequirement` is caught and the line skipped; an extra-index line
appends to the second list; a package line appends to the first. -/
def parseLinesStep (reqParse : String → Option PackagingReq)
    (acc : List PackageRequirement × List String) (line : String) :
    List PackageRequirement × List String :=
  match parse_requirement_line reqParse line with
  | Except.error _ => acc
  | Except.ok none => acc
  | Except.ok (some (package, extra)) =>
    match extra with
    | some e => (acc.1, acc.2 ++ [e])
    | none =>
      match package with
      | some p => (acc.1 ++ [p], acc.2)
      | none => acc

/-- The text-file branch of `parse_requirements` (requirements.py
lines 24-40), applied to the `splitlines()` result of the file. -/
def parseRequirementsLines (reqParse : String → Option PackagingReq)
    (lines : List String) : List PackageRequirement × List String :=
  lines.foldl (parseLinesStep reqParse) ([], [])

/-- `parse_requirement_text` (requirements.py lines 65-74).  Unlike
`parse_requirements`, the loop has no `try`/`except`: a raised
`InvalidRequirement` propagates (modelled by `Except.error`). -/
def parse_requirement_text (reqParse : String → Option PackagingReq)
    (text : List String) : Except String (List PackageRequirement) :=
  text.foldlM
    (fun acc line => do
      let parsed ← parse_requirement_line reqParse line
      match parsed with
      | none => pure acc
      | some (package, _) =>
        match package with
        | some p => pure (acc ++ [p])
        | none => pure acc)
    []

/-! ## `_parse_pyproject` (`requirements.py` lines 111-177)

TOML values are modelled by `Toml`; `tomllib.loads` always yields a
dictionary, modelled as an association list `List (String × Toml)` whose
order is the document's key order (Python dicts iterate in insertion
order). -/

/-- A TOML value as produced by `tomllib.loads`. -/
inductive Toml where
  | str (s : String)
  | boolean (b : Bool)
  | num (n : Int)
  | list (items : List Toml)
  | table (entries : List (String × Toml))

/-- Python truthiness of a TOML value (`if optional_dependencies:`). -/
def Toml.truthy : Toml → Bool
  | .str s => !s.data.isEmpty
  | .boolean b => b
  | .num n => n != 0
  | .list l => !l.isEmpty
  | .table t => !t.isEmpty

/-- Dictionary lookup (`dict.get(key)` / `dict.get(key, default)` via
`Option.getD`); TOML tables have unique keys. -/
def assocGet (entries : List (String × Toml)) (key : String) : Option Toml :=
  match entries with
  | [] => none
  | (k, v) :: rest => if k = key then some v else assocGet rest key

/-- `obj.get(key)` on an arbitrary Python value: raises `AttributeError`
unless `obj` is a dictionary. -/
def tomlGet (t : Toml) (key : String) : Except String (Option Toml) :=
  match t with
  | .table entries => Except.ok (assocGet entries key)
  | _ => Except.error "AttributeError"

/-- `_collect_dependency_strings` (requirements.py lines 163-177): `None`
gives `[]`, a non-list gives `[]` with a warning, and in a list every
non-string entry is skipped with a warning. -/
def _collect_dependency_strings (value : Option Toml) : List String :=
  match value with
  | none => []
  | some (Toml.list entries) =>
    entries.foldl
      (fun acc e =>
        match e with
        | Toml.str s => acc ++ [s]
        | _ => acc) []
  | some _ => []

/-- `_parse_pyproject` (requirements.py lines 111-160).  The argument models
the read/parse outcome: `none` is a `FileNotFoundError` from `read_text`,
`some none` a `TOMLDecodeError`/`AttributeError` raised by `tomllib.loads`,
and `some (some data)` a successfully parsed document.  `Except.error`
models an exception escaping the function (the `project_table.get` calls are
outside any `try`). -/
def _parse_pyproject (reqParse : String → Option PackagingReq)
    (read : Option (Option (List (String × Toml)))) :
    Except String (List PackageRequirement × List String) :=
  match read with
  | none => Except.ok ([], [])
  | some none => Except.ok ([], [])
  | some (some data) =>
    let project_table := (assocGet data "project").getD (Toml.table [])
    match tomlGet project_table "dependencies" with
    | Except.error e => Except.error e
    | Except.ok depsVal =>
      match tomlGet project_table "optional-dependencies" with
      | Except.error e => Except.error e
      | Except.ok optVal =>
        let optional_dependencies := optVal.getD (Toml.table [])
        let ds2 :=
          if optional_dependencies.truthy then
            match optional_dependencies with
            | Toml.table groups =>
              groups.foldl
                (fun acc ge => acc ++ _collect_dependency_strings (some ge.2))
                []
            | _ => []
          else []
        let dependency_strings := _collect_dependency_strings depsVal ++ ds2
        let requirements := dependency_strings.foldl
          (fun acc entry =>
            match parse_requirement_line reqParse entry with
            | Except.error _ => acc
            | Except.ok none => acc
            | Except.ok (some (some p, _)) => acc ++ [p]
            | Except.ok (some (none, _)) => acc)
          []
        Except.ok (requirements, [])

/-- The input of `parse_requirements` (requirements.py lines 20-22): the
suffix test `path.suffix.lower() == ".toml"` selects the branch, so a file
is either a text file (its `splitlines()` result) or a TOML file (its
read/parse outcome). -/
inductive ReqFile where
  | text (lines : List String)
  | toml (read : Option (Option (List (String × Toml))))

/-- `parse_requirements` (requirements.py lines 20-40). -/
def parse_requirements (reqParse : String → Option PackagingReq)
    (file : ReqFile) :
    Except String (List PackageRequirement × List String) :=
  match file with
  | .toml read => _parse_pyproject reqParse read
  | .text lines => Except.ok (parseRequirementsLines reqParse lines)

/-! ## `_collect_targets` (`cli.py` lines 156-255)

Filesystem and conda interaction are injected through `Sys`; paths are
strings.  `Path.resolve()` is called in non-strict mode, which does not
raise for a missing file, so `Sys.resolve` is total and the dead
`except FileNotFoundError` branch of `record_cache` is not modelled. -/

/-- External collaborators of `_collect_targets`. -/
structure Sys where
  resolve : String → String
  pathExists : String → Bool
  sysExecutable : String
  loadCachedCondaEnvs : List (String × String)
  findCondaExecutable : Option String → Option String
  listCondaEnvironments : String → List String
  resolvePythonExecutable : String → Option String
  pathName : String → String

/-- State of the closure `add_target` (cli.py lines 164-173): the target
list and the `seen` set of resolved paths (as a list, membership-tested). -/
structure TargetState where
  targets : List (String × String)
  seen : List String
deriving DecidableEq, Repr

/-- `add_target` (cli.py lines 167-173). -/
def addTarget (sys : Sys) (st : TargetState) (name path : String) :
    TargetState :=
  let resolved := sys.resolve path
  if resolved ∈ st.seen then st
  else { targets := st.targets ++ [(name, resolved)]
         seen := st.seen ++ [resolved] }

/-- State of the closure `record_cache` (cli.py lines 191-202). -/
structure CacheState where
  records : List (String × String)
  seenCached : List String
deriving DecidableEq, Repr

/-- `record_cache` (cli.py lines 194-202). -/
def recordCache (sys : Sys) (cst : CacheState) (envName pythonPath : String) :
    CacheState :=
  let resolvedPython := sys.resolve pythonPath
  if resolvedPython ∈ cst.seenCached then cst
  else { records := cst.records ++ [(envName, resolvedPython)]
         seenCached := cst.seenCached ++ [resolvedPython] }

/-- Result of `_collect_targets`: the returned target list, and the list
passed to `save_cached_conda_envs` when that call happens. -/
structure CollectResult where
  targets : List (String × String)
  savedCache : Option (List (String × String))
deriving DecidableEq, Repr

/-- `_collect_targets` (cli.py lines 156-255). -/
def _collect_targets (sys : Sys) (includeConda : Bool)
    (condaCandidate : Option String) (explicitPythons : List String)
    (refreshCache : Bool) (preloadedCachedEnvs : List (String × String)) :
    CollectResult :=
  let st1 := addTarget sys ⟨[], []⟩ "current" sys.sysExecutable
  let st2 := explicitPythons.enum.foldl
    (fun st ip =>
      if sys.pathExists ip.2 then
        addTarget sys st ("python-" ++ toString (ip.1 + 1)) ip.2
      else st)
    st1
  if includeConda then
    let cachedEntries :=
      (if refreshCache then [] else sys.loadCachedCondaEnvs)
        ++ preloadedCachedEnvs
    let stc := cachedEntries.foldl
      (fun (p : TargetState × CacheState) entry =>
        if sys.pathExists entry.2 then
          (addTarget sys p.1 entry.1 entry.2,
           recordCache sys p.2 entry.1 entry.2)
        else p)
      (st2, ⟨[], []⟩)
    match sys.findCondaExecutable condaCandidate with
    | none => { targets := stc.1.targets, savedCache := some stc.2.records }
    | some condaPath =>
      let stf := (sys.listCondaEnvironments condaPath).foldl
        (fun (p : TargetState × CacheState) envPath =>
          match sys.resolvePythonExecutable envPath with
          | none => p
          | some pythonPath =>
            let name :=
              if (sys.pathName envPath).data.isEmpty then "base"
              else sys.pathName envPath
            (addTarget sys p.1 name pythonPath,
             recordCache sys p.2 name pythonPath))
        stc
      { targets := stf.1.targets, savedCache := some stf.2.records }
  else { targets := st2.targets, savedCache := none }

/-! ## Per-line views and spec-side predicates -/

/-- The requirement a line contributes to `parse_requirements`' first result
list (the loop appends `package` only when no extra-index URL was produced
and no exception was raised). -/
def pkgOf (reqParse : String → Option PackagingReq) (line : String) :
    Option PackageRequirement :=
  match parse_requirement_line reqParse line with
  | Except.ok (some (some p, none)) => some p
  | _ => none

/-- The extra-index URL a line contributes to `parse_requirements`' second
result list. -/
def idxOf (reqParse : String → Option PackagingReq) (line : String) :
    Option String :=
  match parse_requirement_line reqParse line with
  | Except.ok (some (_, some u)) => some u
  | _ => none

/-- Spec §4.1 rule 4's guard: the (stripped) line starts with a URL scheme. -/
def urlSchemeLine (s : String) : Bool :=
  strStartsWith s "http://" || strStartsWith s "https://"
    || strStartsWith s "git+"

/-- Spec-side: a "valid requirement line" — one the spec says yields exactly
one `PackageRequirement`: after stripping it is non-blank, not a comment,
not an option flag, and is either a URL-scheme line carrying an `#egg=`
fragment, or a standard line whose comment-free text is non-empty and
accepted by the requirement grammar. -/
def validLineSpec (reqParse : String → Option PackagingReq)
    (line : String) : Bool :=
  let s := pyStrip line
  let base := pyStrip ((pySplit "#" s).headD "")
  !s.data.isEmpty && !strStartsWith s "#" && !strStartsWith s "--" &&
    ((urlSchemeLine s && containsSub s "#egg=") ||
     (!urlSchemeLine s && !base.data.isEmpty && (reqParse base).isSome))

/-- Spec-side: an extra-index directive line that has URL text after the
directive token — the stripped line starts with the token and some
non-whitespace text follows the first whitespace break. -/
def extraIndexDirectiveWithUrl (line : String) : Bool :=
  let s := pyStrip line
  strStartsWith s "--extra-index-url" &&
    ((s.data.dropWhile (fun c => !c.isWhitespace)).any
      (fun c => !c.isWhitespace))

/-- Spec-side: a syntactically invalid requirement line — a standard
(non-blank, non-comment, non-flag, non-URL) line whose comment-free text is
non-empty but rejected by the requirement grammar
(`InvalidRequirement`). -/
def invalidLineSpec (reqParse : String → Option PackagingReq)
    (line : String) : Bool :=
  let s := pyStrip line
  let base := pyStrip ((pySplit "#" s).headD "")
  !s.data.isEmpty && !strStartsWith s "#" && !strStartsWith s "--" &&
    !urlSchemeLine s && !base.data.isEmpty && (reqParse base).isNone

/-- Concrete stand-in for `packaging.requirements.Requirement` that agrees
with it on plain-name inputs (bare package names parse to themselves with no
specifier, marker, or URL); used to instantiate witnesses. -/
def bareNameParse : String → Option PackagingReq :=
  fun s => some { name := s, specifier := [], marker := none, url := none }

/-- Stand-in for `packaging.requirements.Requirement` that rejects exactly
the text `"bad"`, used to exercise the `InvalidRequirement` paths. -/
def failOnBadParse : String → Option PackagingReq :=
  fun s =>
    if s = "bad" then none
    else some { name := s, specifier := [], marker := none, url := none }

/-- The requirement produced for the concrete line `"NumPy"` under the
plain-name requirement grammar. -/
def numpyPR : PackageRequirement :=
  { name := "numpy", specs := [], marker := none, url := none,
    original := "NumPy" }

/-- Spec-side: the prefix of `cs` before the first occurrence of `sep`
(all of `cs` when `sep` does not occur). -/
def takeUntilSub (sep : List Char) (cs : List Char) : List Char :=
  match breakOnSub sep cs with
  | none => cs
  | some (pre, _) => pre

/-- Spec-side: the suffix of `cs` after the first occurrence of `sep`
(empty when `sep` does not occur). -/
def afterFirstSub (sep : List Char) (cs : List Char) : List Char :=
  match breakOnSub sep cs with
  | none => []
  | some (_, post) => post

/-- Spec-side description of the egg-fragment segment actually used by the
code: the text after the first `#egg=`, truncated at the next `#egg=` (if
any) and then at the next `&` (if any). -/
def eggSegmentSpec (s : String) : String :=
  String.mk (takeUntilSub ['&']
    (takeUntilSub ("#egg=" : String).data
      (afterFirstSub ("#egg=" : String).data s.data)))

/-- Concrete URL line exercising the egg-name extraction corner cases:
trailing whitespace, a space and capital letter inside the fragment, a
second `#egg=` marker, and an `&`-separated trailer. -/
def eggLine : String := "http://x#egg= Foo#egg=z&y "

/-- The requirement the code actually builds for `eggLine`. -/
def eggLinePR : PackageRequirement :=
  { name := "foo", specs := [], marker := none,
    url := some "http://x#egg= Foo#egg=z&y",
    original := "http://x#egg= Foo#egg=z&y" }

/-- The requirement built for the concrete line
`"git+https://g/x.git#egg=GitPkg"`. -/
def gitPkgPR : PackageRequirement :=
  { name := "gitpkg", specs := [], marker := none,
    url := some "git+https://g/x.git#egg=GitPkg",
    original := "git+https://g/x.git#egg=GitPkg" }

/-- Spec-side: the string-valued entries of a dependency list, in list
order. -/
def strEntries (items : List Toml) : List String :=
  items.filterMap (fun e =>
    match e with
    | Toml.str s => some s
    | _ => none)

/-- Spec-side: the string entries contributed by one optional-dependency
group (nothing when the group value is not a list). -/
def groupStrings (g : String × Toml) : List String :=
  match g.2 with
  | Toml.list items => strEntries items
  | _ => []

/-- Dependency list of the scenario manifest. -/
def pyprojectDS : List Toml := [Toml.str "numpy", Toml.str "pandas"]

/-- Optional-dependency groups of the scenario manifest. -/
def pyprojectGS : List (String × Toml) :=
  [("dev", Toml.list [Toml.str "requests"])]

/-- `project` table of the scenario manifest. -/
def pyprojectPT : List (String × Toml) :=
  [("dependencies", Toml.list pyprojectDS),
   ("optional-dependencies", Toml.table pyprojectGS)]

/-- The manifest of the spec's scenario: two plain dependencies and one
optional `dev` group. -/
def pyprojectDoc : List (String × Toml) :=
  [("project", Toml.table pyprojectPT)]

/-- A parsed manifest whose `project` key holds a string instead of a
table. -/
def badProjectDoc : List (String × Toml) := [("project", Toml.str "x")]

/-! ## Spec-side deduplication and discovery order -/

/-- Spec-side first-seen-wins deduplication by a key function. -/
def dedupeByKey {α β : Type} (key : α → β) [DecidableEq β] :
    List α → List α
  | [] => []
  | x :: xs => x :: dedupeByKey key (xs.filter (fun y => key y ≠ key x))
termination_by l => l.length
decreasing_by
  simp only [List.length_cons]
  exact Nat.lt_succ_of_le (List.length_filter_le _ _)

/-- Deduplication relative to an already-seen key set (mirrors the
incremental `seen` bookkeeping of the code). -/
def dedupeSeen {α β : Type} (key : α → β) [DecidableEq β] :
    List β → List α → List α
  | _, [] => []
  | seen, x :: xs =>
    if key x ∈ seen then dedupeSeen key seen xs
    else x :: dedupeSeen key (key x :: seen) xs

/-- `add_target` applied to a list of `(name, path)` candidates in order. -/
def addTargets (sys : Sys) (st : TargetState)
    (cands : List (String × String)) : TargetState :=
  cands.foldl (fun st e => addTarget sys st e.1 e.2) st

/-- `record_cache` applied to a list of `(name, path)` candidates in
order. -/
def recordAll (sys : Sys) (cst : CacheState)
    (cands : List (String × String)) : CacheState :=
  cands.foldl (fun cst e => recordCache sys cst e.1 e.2) cst

/-- Resolve every candidate's interpreter path (the form in which both
`targets` and the cache store entries). -/
def resolvedCands (sys : Sys) (cands : List (String × String)) :
    List (String × String) :=
  cands.map (fun e => (e.1, sys.resolve e.2))

/-- Spec-side: the explicit `--python` candidates that exist, in given
order, with their `python-<index>` names (indices count all given entries,
existing or not). -/
def explicitCands (sys : Sys) (explicitPythons : List String) :
    List (String × String) :=
  (explicitPythons.enum.filter (fun ip => sys.pathExists ip.2)).map
    (fun ip => ("python-" ++ toString (ip.1 + 1), ip.2))

/-- Spec-side: the cached conda entries considered this run (none under a
refresh, then the preloaded registrations), restricted to those whose
interpreter path exists, in cache order. -/
def cachedCands (sys : Sys) (refreshCache : Bool)
    (preloadedCachedEnvs : List (String × String)) :
    List (String × String) :=
  ((if refreshCache then [] else sys.loadCachedCondaEnvs)
      ++ preloadedCachedEnvs).filter (fun e => sys.pathExists e.2)

/-- Spec-side: the freshly scanned conda environments that resolve to an
interpreter, in scan order, with their environment names. -/
def freshCands (sys : Sys) (condaPath : String) : List (String × String) :=
  (sys.listCondaEnvironments condaPath).filterMap (fun envPath =>
    (sys.resolvePythonExecutable envPath).map (fun pythonPath =>
      (if (sys.pathName envPath).data.isEmpty then "base"
       else sys.pathName envPath, pythonPath)))

/-- Spec-side: all conda-section candidates — cached entries first, then
fresh scan results (none of the latter when no conda executable is
found). -/
def condaCands (sys : Sys) (condaCandidate : Option String)
    (refreshCache : Bool) (preloadedCachedEnvs : List (String × String)) :
    List (String × String) :=
  cachedCands sys refreshCache preloadedCachedEnvs
    ++ (match sys.findCondaExecutable condaCandidate with
        | none => []
        | some condaPath => freshCands sys condaPath)

/-- Spec-side: the full candidate list in discovery order — the current
interpreter first, then explicit entries in given order, then conda cached
entries followed by freshly scanned ones. -/
def allCands (sys : Sys) (includeConda : Bool)
    (condaCandidate : Option String) (explicitPythons : List String)
    (refreshCache : Bool) (preloadedCachedEnvs : List (String × String)) :
    List (String × String) :=
  ("current", sys.sysExecutable)
    :: explicitCands sys explicitPythons
    ++ (if includeConda then
          condaCands sys condaCandidate refreshCache preloadedCachedEnvs
        else [])

/-- A concrete discovery world for the C8 witness: one registered entry
`gamma` whose interpreter exists, and no conda executable. -/
def sysW : Sys :=
  { resolve := id
    pathExists := fun p => p = "/g/py" || p = "/cur/py"
    sysExecutable := "/cur/py"
    loadCachedCondaEnvs := [("gamma", "/g/py")]
    findCondaExecutable := fun _ => none
    listCondaEnvironments := fun _ => []
    resolvePythonExecutable := fun _ => none
    pathName := fun _ => "" }

/-! ## Theorems -/

theorem breakOnSub_some_length {s0 : Char} {srest cs pre post : List Char}
    (h : breakOnSub (s0 :: srest) cs = some (pre, post)) :
    post.length < cs.length := by
  induction cs generalizing pre post with
  | nil => simp [breakOnSub] at h
  | cons c cs ih =>
    rw [breakOnSub] at h
    split at h
    · rename_i hpre
      have hlen : (s0 :: srest).length ≤ (c :: cs).length :=
        (List.isPrefixOf_iff_prefix.mp hpre).length_le
      simp only [Option.some.injEq, Prod.mk.injEq] at h
      obtain ⟨-, hp⟩ := h
      subst hp
      simp only [List.length_drop, List.length_cons] at *
      omega
    · rename_i hnot
      cases hbr : breakOnSub (s0 :: srest) cs with
      | none => rw [hbr] at h; exact absurd h (by simp)
      | some pq =>
        rw [hbr] at h
        obtain ⟨pre', post'⟩ := pq
        simp only [Option.some.injEq, Prod.mk.injEq] at h
        obtain ⟨-, hp⟩ := h
        subst hp
        have := ih hbr
        simp only [List.length_cons]
        omega

theorem splitOnSubFuel_congr (s0 : Char) (srest : List Char) :
    ∀ fuel1 fuel2 cs, cs.length < fuel1 → cs.length < fuel2 →
      splitOnSubFuel s0 srest fuel1 cs = splitOnSubFuel s0 srest fuel2 cs := by
  intro fuel1
  induction fuel1 with
  | zero => intro fuel2 cs h1 h2; omega
  | succ n ih =>
    intro fuel2 cs h1 h2
    cases fuel2 with
    | zero => omega
    | succ m =>
      cases hbr : breakOnSub (s0 :: srest) cs with
      | none => simp only [splitOnSubFuel, hbr]
      | some pq =>
        obtain ⟨pre, post⟩ := pq
        have hlt := breakOnSub_some_length hbr
        simp only [splitOnSubFuel, hbr]
        rw [ih m post (by omega) (by omega)]

/-- One-step unfolding of `splitOnSub`. -/
theorem splitOnSub_eq (s0 : Char) (srest : List Char) (cs : List Char) :
    splitOnSub s0 srest cs =
      match breakOnSub (s0 :: srest) cs with
      | none => [cs]
      | some (pre, post) => pre :: splitOnSub s0 srest post := by
  rw [splitOnSub]
  cases hbr : breakOnSub (s0 :: srest) cs with
  | none => simp only [splitOnSubFuel, hbr]
  | some pq =>
    obtain ⟨pre, post⟩ := pq
    have hlt := breakOnSub_some_length hbr
    simp only [splitOnSubFuel, hbr]
    rw [splitOnSubFuel_congr s0 srest cs.length (post.length + 1) post
      (by omega) (by omega)]
    rfl

theorem toNat_ofNat_valid (n : Nat) (h : n.isValidChar) :
    (Char.ofNat n).toNat = n := by
  simp [Char.ofNat, h, Char.ofNatAux, Char.toNat, UInt32.toNat]

theorem charLower_idem (c : Char) : charLower (charLower c) = charLower c := by
  unfold charLower
  by_cases h : 65 ≤ c.toNat ∧ c.toNat ≤ 90
  · rw [if_pos h]
    have ht : (Char.ofNat (c.toNat + 32)).toNat = c.toNat + 32 :=
      toNat_ofNat_valid _ (Or.inl (by omega))
    rw [if_neg (by omega)]
  · rw [if_neg h, if_neg h]

theorem strLower_idem (s : String) : strLower (strLower s) = strLower s := by
  show String.mk ((s.data.map charLower).map charLower)
    = String.mk (s.data.map charLower)
  simp [List.map_map, Function.comp_def, charLower_idem]

theorem strStartsWith_ex {s p : String} (h : strStartsWith s p = true) :
    ∃ t, p.data ++ t = s.data := by
  exact List.isPrefixOf_iff_prefix.mp h

theorem parseLines_foldl (reqParse : String → Option PackagingReq)
    (lines : List String) (acc : List PackageRequirement × List String) :
    lines.foldl (parseLinesStep reqParse) acc =
      (acc.1 ++ lines.filterMap (pkgOf reqParse),
       acc.2 ++ lines.filterMap (idxOf reqParse)) := by
  induction lines generalizing acc with
  | nil => simp
  | cons line rest ih =>
    rw [List.foldl_cons, ih]
    cases h : parse_requirement_line reqParse line with
    | error e => simp [parseLinesStep, pkgOf, idxOf, h]
    | ok v =>
      match v with
      | none => simp [parseLinesStep, pkgOf, idxOf, h]
      | some (package, extra) =>
        match extra with
        | some u => simp [parseLinesStep, pkgOf, idxOf, h]
        | none =>
          match package with
          | some p => simp [parseLinesStep, pkgOf, idxOf, h]
          | none => simp [parseLinesStep, pkgOf, idxOf, h]

theorem parseRequirementsLines_eq (reqParse : String → Option PackagingReq)
    (lines : List String) :
    parseRequirementsLines reqParse lines =
      (lines.filterMap (pkgOf reqParse), lines.filterMap (idxOf reqParse)) := by
  simpa using parseLines_foldl reqParse lines ([], [])

theorem strStartsWith_trans {s p q : String} (hpq : strStartsWith p q = true)
    (hsp : strStartsWith s p = true) : strStartsWith s q = true := by
  obtain ⟨t1, h1⟩ := strStartsWith_ex hpq
  obtain ⟨t2, h2⟩ := strStartsWith_ex hsp
  unfold strStartsWith
  rw [List.isPrefixOf_iff_prefix]
  exact ⟨t1 ++ t2, by rw [← h2, ← h1]; simp⟩

theorem startsWith_head {s p : String} {c : Char} {cs : List Char}
    (hp : p.data = c :: cs) (h : strStartsWith s p = true) :
    ∃ t, s.data = c :: t := by
  obtain ⟨t, ht⟩ := strStartsWith_ex h
  exact ⟨cs ++ t, by rw [← ht, hp]; simp⟩

theorem dropWhile_ws_empty (r : List Char) :
    ((r.dropWhile Char.isWhitespace).isEmpty)
      = !(r.any fun c => !c.isWhitespace) := by
  rw [Bool.eq_iff_iff]
  simp [List.isEmpty_iff, List.dropWhile_eq_nil_iff, List.any_eq_true]

theorem prl_blank (reqParse : String → Option PackagingReq) (line : String)
    (h : ((pyStrip line).data.isEmpty || strStartsWith (pyStrip line) "#")
      = true) :
    parse_requirement_line reqParse line = Except.ok none := by
  unfold parse_requirement_line
  rw [if_pos h]

theorem prl_extra_url (reqParse : String → Option PackagingReq)
    (line : String)
    (h1 : ¬ (((pyStrip line).data.isEmpty
      || strStartsWith (pyStrip line) "#") = true))
    (h2 : strStartsWith (pyStrip line) "--extra-index-url" = true)
    (hrest : ((((pyStrip line).data.dropWhile
        (fun c => !c.isWhitespace)).dropWhile
        (fun c => c.isWhitespace)).isEmpty) = false) :
    parse_requirement_line reqParse line =
      Except.ok (some (none, some (pyStrip (String.mk
        ((((pyStrip line).data.dropWhile
          (fun c => !c.isWhitespace)).dropWhile
          (fun c => c.isWhitespace))))))) := by
  unfold parse_requirement_line
  rw [if_neg h1, if_pos h2]
  simp [splitNone1, hrest]

theorem prl_extra_nourl (reqParse : String → Option PackagingReq)
    (line : String)
    (h1 : ¬ (((pyStrip line).data.isEmpty
      || strStartsWith (pyStrip line) "#") = true))
    (h2 : strStartsWith (pyStrip line) "--extra-index-url" = true)
    (hrest : ((((pyStrip line).data.dropWhile
        (fun c => !c.isWhitespace)).dropWhile
        (fun c => c.isWhitespace)).isEmpty) = true) :
    parse_requirement_line reqParse line = Except.ok (some (none, none)) := by
  unfold parse_requirement_line
  rw [if_neg h1, if_pos h2]
  simp [splitNone1, hrest]

theorem prl_dashdash (reqParse : String → Option PackagingReq) (line : String)
    (h1 : ¬ (((pyStrip line).data.isEmpty
      || strStartsWith (pyStrip line) "#") = true))
    (h2 : ¬ (strStartsWith (pyStrip line) "--extra-index-url" = true))
    (h3 : strStartsWith (pyStrip line) "--" = true) :
    parse_requirement_line reqParse line = Except.ok none := by
  unfold parse_requirement_line
  rw [if_neg h1, if_neg h2, if_pos h3]

theorem prl_egg (reqParse : String → Option PackagingReq) (line : String)
    (h1 : ¬ (((pyStrip line).data.isEmpty
      || strStartsWith (pyStrip line) "#") = true))
    (h2 : ¬ (strStartsWith (pyStrip line) "--extra-index-url" = true))
    (h3 : ¬ (strStartsWith (pyStrip line) "--" = true))
    (h4 : (strStartsWith (pyStrip line) "http://"
      || strStartsWith (pyStrip line) "https://"
      || strStartsWith (pyStrip line) "git+") = true)
    (hegg : containsSub (pyStrip line) "#egg=" = true) :
    parse_requirement_line reqParse line =
      Except.ok (some (some (_build_requirement
        (pyStrip ((pySplit "&"
          (getD1 (pySplit "#egg=" (pyStrip line)))).headD ""))
        [] (pyStrip line) (some (pyStrip line))), none)) := by
  unfold parse_requirement_line
  rw [if_neg h1, if_neg h2, if_neg h3, if_pos h4, if_pos hegg]

theorem prl_scheme_noegg (reqParse : String → Option PackagingReq)
    (line : String)
    (h1 : ¬ (((pyStrip line).data.isEmpty
      || strStartsWith (pyStrip line) "#") = true))
    (h2 : ¬ (strStartsWith (pyStrip line) "--extra-index-url" = true))
    (h3 : ¬ (strStartsWith (pyStrip line) "--" = true))
    (h4 : (strStartsWith (pyStrip line) "http://"
      || strStartsWith (pyStrip line) "https://"
      || strStartsWith (pyStrip line) "git+") = true)
    (hegg : containsSub (pyStrip line) "#egg=" = false) :
    parse_requirement_line reqParse line = Except.ok none := by
  unfold parse_requirement_line
  rw [if_neg h1, if_neg h2, if_neg h3, if_pos h4, if_neg (by simp [hegg])]

theorem prl_base_empty (reqParse : String → Option PackagingReq)
    (line : String)
    (h1 : ¬ (((pyStrip line).data.isEmpty
      || strStartsWith (pyStrip line) "#") = true))
    (h2 : ¬ (strStartsWith (pyStrip line) "--extra-index-url" = true))
    (h3 : ¬ (strStartsWith (pyStrip line) "--" = true))
    (h4 : ¬ ((strStartsWith (pyStrip line) "http://"
      || strStartsWith (pyStrip line) "https://"
      || strStartsWith (pyStrip line) "git+") = true))
    (hbase : (pyStrip ((pySplit "#" (pyStrip line)).headD "")).data.isEmpty
      = true) :
    parse_requirement_line reqParse line = Except.ok none := by
  unfold parse_requirement_line
  rw [if_neg h1, if_neg h2, if_neg h3, if_neg h4, if_pos hbase]

theorem prl_standard (reqParse : String → Option PackagingReq) (line : String)
    (h1 : ¬ (((pyStrip line).data.isEmpty
      || strStartsWith (pyStrip line) "#") = true))
    (h2 : ¬ (strStartsWith (pyStrip line) "--extra-index-url" = true))
    (h3 : ¬ (strStartsWith (pyStrip line) "--" = true))
    (h4 : ¬ ((strStartsWith (pyStrip line) "http://"
      || strStartsWith (pyStrip line) "https://"
      || strStartsWith (pyStrip line) "git+") = true))
    (hbase : (pyStrip ((pySplit "#" (pyStrip line)).headD "")).data.isEmpty
      = false) :
    parse_requirement_line reqParse line =
      match _parse_standard_requirement reqParse
          (pyStrip ((pySplit "#" (pyStrip line)).headD "")) (pyStrip line) with
      | Except.error e => Except.error e
      | Except.ok r => Except.ok (some (some r, none)) := by
  unfold parse_requirement_line
  rw [if_neg h1, if_neg h2, if_neg h3, if_neg h4, if_neg (by simp only [hbase]; decide)]

theorem extra_index_startsWith_dashdash {s : String}
    (h : strStartsWith s "--extra-index-url" = true) :
    strStartsWith s "--" = true :=
  strStartsWith_trans (by decide) h

theorem idxOf_isSome (reqParse : String → Option PackagingReq)
    (line : String) :
    (idxOf reqParse line).isSome = extraIndexDirectiveWithUrl line := by
  unfold extraIndexDirectiveWithUrl
  by_cases h1 : (((pyStrip line).data.isEmpty
      || strStartsWith (pyStrip line) "#") = true)
  · rw [idxOf, prl_blank reqParse line h1]
    have hfalse : strStartsWith (pyStrip line) "--extra-index-url" = false := by
      rcases Bool.or_eq_true_iff.mp h1 with hb | hh
      · rcases hd : (pyStrip line).data with - | ⟨c, cs⟩
        · have hlit : ("--extra-index-url" : String).data
            = '-' :: ("-extra-index-url" : String).data := rfl
          simp [strStartsWith, hd, hlit, List.isPrefixOf]
        · rw [hd] at hb; simp at hb
      · cases hb2 : strStartsWith (pyStrip line) "--extra-index-url" with
        | false => rfl
        | true =>
          exfalso
          obtain ⟨t, ht⟩ := startsWith_head
            (show ("#" : String).data = '#' :: [] from rfl) hh
          obtain ⟨t', ht'⟩ := startsWith_head
            (show ("--extra-index-url" : String).data
              = '-' :: ("-extra-index-url" : String).data from rfl) hb2
          rw [ht] at ht'
          simp at ht'
    simp [hfalse]
  · by_cases h2 : strStartsWith (pyStrip line) "--extra-index-url" = true
    · by_cases hrest : ((((pyStrip line).data.dropWhile
          (fun c => !c.isWhitespace)).dropWhile
          (fun c => c.isWhitespace)).isEmpty) = true
      · rw [idxOf, prl_extra_nourl reqParse line h1 h2 hrest]
        rw [dropWhile_ws_empty] at hrest
        simp only [Bool.not_eq_true'] at hrest
        simp [h2, hrest]
      · have hrest' : ((((pyStrip line).data.dropWhile
            (fun c => !c.isWhitespace)).dropWhile
            (fun c => c.isWhitespace)).isEmpty) = false := by
          simpa using hrest
        rw [idxOf, prl_extra_url reqParse line h1 h2 hrest']
        rw [dropWhile_ws_empty] at hrest'
        simp only [Bool.not_eq_false'] at hrest'
        simp [h2, hrest']
    · have h2f : strStartsWith (pyStrip line) "--extra-index-url" = false := by
        simpa using h2
      simp only [h2f, Bool.false_and]
      by_cases h3 : strStartsWith (pyStrip line) "--" = true
      · rw [idxOf, prl_dashdash reqParse line h1 h2 h3]; rfl
      · by_cases h4 : ((strStartsWith (pyStrip line) "http://"
            || strStartsWith (pyStrip line) "https://"
            || strStartsWith (pyStrip line) "git+") = true)
        · by_cases hegg : containsSub (pyStrip line) "#egg=" = true
          · rw [idxOf, prl_egg reqParse line h1 h2 h3 h4 hegg]; rfl
          · rw [idxOf, prl_scheme_noegg reqParse line h1 h2 h3 h4
              (by simpa using hegg)]
            rfl
        · by_cases hbase : (pyStrip ((pySplit "#"
              (pyStrip line)).headD "")).data.isEmpty = true
          · rw [idxOf, prl_base_empty reqParse line h1 h2 h3 h4 hbase]; rfl
          · rw [idxOf, prl_standard reqParse line h1 h2 h3 h4
              (by simpa using hbase)]
            cases hp : reqParse (pyStrip ((pySplit "#"
                (pyStrip line)).headD "")) <;>
              simp only [_parse_standard_requirement, hp] <;> rfl

theorem pkgOf_isSome (reqParse : String → Option PackagingReq)
    (line : String) :
    (pkgOf reqParse line).isSome = validLineSpec reqParse line := by
  unfold validLineSpec
  by_cases h1 : (((pyStrip line).data.isEmpty
      || strStartsWith (pyStrip line) "#") = true)
  · rw [pkgOf, prl_blank reqParse line h1]
    rcases Bool.or_eq_true_iff.mp h1 with hb | hh
    · simp [hb]
    · simp [hh]
  · have h1' : ((pyStrip line).data.isEmpty
        || strStartsWith (pyStrip line) "#") = false := by simpa using h1
    obtain ⟨hb, hh⟩ := Bool.or_eq_false_iff.mp h1'
    by_cases h2 : strStartsWith (pyStrip line) "--extra-index-url" = true
    · have h3t : strStartsWith (pyStrip line) "--" = true :=
        extra_index_startsWith_dashdash h2
      by_cases hrest : ((((pyStrip line).data.dropWhile
          (fun c => !c.isWhitespace)).dropWhile
          (fun c => c.isWhitespace)).isEmpty) = true
      · rw [pkgOf, prl_extra_nourl reqParse line h1 h2 hrest]
        simp [h3t]
      · rw [pkgOf, prl_extra_url reqParse line h1 h2 (by simpa using hrest)]
        simp [h3t]
    · by_cases h3 : strStartsWith (pyStrip line) "--" = true
      · rw [pkgOf, prl_dashdash reqParse line h1 h2 h3]
        simp [h3]
      · have h3f : strStartsWith (pyStrip line) "--" = false := by
          simpa using h3
        by_cases h4 : ((strStartsWith (pyStrip line) "http://"
            || strStartsWith (pyStrip line) "https://"
            || strStartsWith (pyStrip line) "git+") = true)
        · by_cases hegg : containsSub (pyStrip line) "#egg=" = true
          · rw [pkgOf, prl_egg reqParse line h1 h2 h3 h4 hegg]
            simp [urlSchemeLine, hb, hh, h3f, h4, hegg]
          · have heggf : containsSub (pyStrip line) "#egg=" = false := by
              simpa using hegg
            rw [pkgOf, prl_scheme_noegg reqParse line h1 h2 h3 h4 heggf]
            simp [urlSchemeLine, h4, heggf]
        · have h4f : (strStartsWith (pyStrip line) "http://"
              || strStartsWith (pyStrip line) "https://"
              || strStartsWith (pyStrip line) "git+") = false := by
            simpa using h4
          by_cases hbase : (pyStrip ((pySplit "#"
              (pyStrip line)).headD "")).data.isEmpty = true
          · rw [pkgOf, prl_base_empty reqParse line h1 h2 h3 h4 hbase]
            simp only [urlSchemeLine, h4f, hbase, Bool.not_true,
              Bool.not_false, Bool.false_and, Bool.and_false, Bool.true_and,
              Bool.and_true, Bool.or_false, Bool.false_or]
            rfl
          · have hbasef : (pyStrip ((pySplit "#"
                (pyStrip line)).headD "")).data.isEmpty = false := by
              simpa using hbase
            rw [pkgOf, prl_standard reqParse line h1 h2 h3 h4 hbasef]
            cases hp : reqParse (pyStrip ((pySplit "#"
                (pyStrip line)).headD "")) with
            | none =>
              rw [show (_parse_standard_requirement reqParse
                  (pyStrip ((pySplit "#" (pyStrip line)).headD ""))
                  (pyStrip line)) = Except.error (pyStrip ((pySplit "#"
                  (pyStrip line)).headD "")) from by
                simp only [_parse_standard_requirement, hp]]
              simp only [urlSchemeLine, hb, hh, h3f, h4f, hbasef, hp,
                Option.isSome_none, Bool.not_true, Bool.not_false,
                Bool.false_and, Bool.and_false, Bool.true_and, Bool.and_true,
                Bool.or_false, Bool.false_or]
            | some pr =>
              rw [show (_parse_standard_requirement reqParse
                  (pyStrip ((pySplit "#" (pyStrip line)).headD ""))
                  (pyStrip line)) = Except.ok
                  { name := strLower pr.name, specs := pr.specifier,
                    marker := pr.marker, url := pr.url,
                    original := pyStrip line } from by
                simp only [_parse_standard_requirement, hp]]
              simp only [urlSchemeLine, hb, hh, h3f, h4f, hbasef, hp,
                Option.isSome_some, Bool.not_true, Bool.not_false,
                Bool.false_and, Bool.and_false, Bool.true_and, Bool.and_true,
                Bool.or_false, Bool.false_or]

end Psypyenv
namespace Psypyenv

/-- **C1.** For every requirements text file, `parse_requirements` returns
exactly one `PackageRequirement` per valid requirement line, in file order
(first component), and exactly one extra-index URL per extra-index directive
line that has URL text after the directive token, in file order (second
component); a line contributes a requirement exactly when it is a valid
requirement line, and an index URL exactly when it is a directive line with
URL text, so blank lines, comment lines, other `--` option lines, and
egg-less URL lines contribute nothing to either sequence. -/
theorem C1_round_trip (reqParse : String → Option PackagingReq)
    (lines : List String) :
    parse_requirements reqParse (ReqFile.text lines) =
      Except.ok (lines.filterMap (pkgOf reqParse),
        lines.filterMap (idxOf reqParse))
    ∧ (∀ line, (pkgOf reqParse line).isSome = validLineSpec reqParse line)
    ∧ (∀ line, (idxOf reqParse line).isSome
        = extraIndexDirectiveWithUrl line) := by
  refine ⟨?_, fun line => pkgOf_isSome reqParse line,
    fun line => idxOf_isSome reqParse line⟩
  simp [parse_requirements, parseRequirementsLines_eq]

theorem invalid_line_parse (reqParse : String → Option PackagingReq)
    (line : String) (h : invalidLineSpec reqParse line = true) :
    parse_requirement_line reqParse line =
      Except.error (pyStrip ((pySplit "#" (pyStrip line)).headD "")) := by
  simp only [invalidLineSpec, Bool.and_eq_true, Bool.not_eq_true'] at h
  obtain ⟨⟨⟨⟨⟨hb, hh⟩, h3⟩, h4⟩, hbase⟩, hp⟩ := h
  simp only [urlSchemeLine, Bool.or_eq_false_iff] at h4
  rw [prl_standard reqParse line (by simp [hb, hh])
    (fun hx => by rw [extra_index_startsWith_dashdash hx] at h3; simp at h3)
    (by simp [h3]) (by simp [h4.1.1, h4.1.2, h4.2]) (by simpa using hbase)]
  rw [show _parse_standard_requirement reqParse
      (pyStrip ((pySplit "#" (pyStrip line)).headD "")) (pyStrip line)
      = Except.error (pyStrip ((pySplit "#" (pyStrip line)).headD ""))
    from by simp only [_parse_standard_requirement,
      Option.isNone_iff_eq_none.mp hp]]

/-- **C3.** `parse_requirements` never raises on a syntactically invalid
requirement line: parsing a text file containing a malformed line gives
exactly the result of parsing the same file with that line absent (the bad
line is skipped, all other lines' order and content unaffected), and the
text-file parse always returns a result (never an exception). -/
theorem C3_invalid_line_skipped (reqParse : String → Option PackagingReq)
    (pre post : List String) (bad : String)
    (h : invalidLineSpec reqParse bad = true) :
    parse_requirements reqParse (ReqFile.text (pre ++ bad :: post)) =
      parse_requirements reqParse (ReqFile.text (pre ++ post))
    ∧ ∀ ls : List String, ∃ res,
        parse_requirements reqParse (ReqFile.text ls) = Except.ok res := by
  have hbad := invalid_line_parse reqParse bad h
  have hpkg : pkgOf reqParse bad = none := by simp [pkgOf, hbad]
  have hidx : idxOf reqParse bad = none := by simp [idxOf, hbad]
  constructor
  · simp [parse_requirements, parseRequirementsLines_eq,
      List.filterMap_append, List.filterMap_cons, hpkg, hidx]
  · intro ls
    exact ⟨parseRequirementsLines reqParse ls, rfl⟩

/-- Witness for C3 at a concrete input: with a parser rejecting `"bad"`,
the file `good, bad, also` parses exactly like `good, also`. -/
theorem C3_witness :
    parse_requirements failOnBadParse
        (ReqFile.text ["good", "bad", "also"]) =
      parse_requirements failOnBadParse (ReqFile.text ["good", "also"]) :=
  (C3_invalid_line_skipped failOnBadParse ["good"] ["also"]
    "bad" (by decide)).1

/-- **C5.** Every `PackageRequirement` produced by parsing any requirement
line has a non-empty `original` field and a name equal to its own
lowercasing. -/
theorem C5_requirement_invariants (reqParse : String → Option PackagingReq)
    (line : String) (p : PackageRequirement) (x : Option String)
    (h : parse_requirement_line reqParse line = Except.ok (some (some p, x))) :
    p.original ≠ "" ∧ strLower p.name = p.name := by
  by_cases h1 : (((pyStrip line).data.isEmpty
      || strStartsWith (pyStrip line) "#") = true)
  · rw [prl_blank reqParse line h1] at h
    simp at h
  · have h1' : ((pyStrip line).data.isEmpty
        || strStartsWith (pyStrip line) "#") = false := by simpa using h1
    obtain ⟨hb, hh⟩ := Bool.or_eq_false_iff.mp h1'
    have horig : ∀ q : PackageRequirement, q.original = pyStrip line →
        q.original ≠ "" := by
      intro q hq hqe
      rw [hqe] at hq
      have : (pyStrip line).data = [] := by rw [← hq]
      rw [this] at hb
      simp at hb
    by_cases h2 : strStartsWith (pyStrip line) "--extra-index-url" = true
    · by_cases hrest : ((((pyStrip line).data.dropWhile
          (fun c => !c.isWhitespace)).dropWhile
          (fun c => c.isWhitespace)).isEmpty) = true
      · rw [prl_extra_nourl reqParse line h1 h2 hrest] at h
        simp at h
      · rw [prl_extra_url reqParse line h1 h2 (by simpa using hrest)] at h
        simp at h
    · by_cases h3 : strStartsWith (pyStrip line) "--" = true
      · rw [prl_dashdash reqParse line h1 h2 h3] at h
        simp at h
      · by_cases h4 : ((strStartsWith (pyStrip line) "http://"
            || strStartsWith (pyStrip line) "https://"
            || strStartsWith (pyStrip line) "git+") = true)
        · by_cases hegg : containsSub (pyStrip line) "#egg=" = true
          · rw [prl_egg reqParse line h1 h2 h3 h4 hegg] at h
            simp only [Except.ok.injEq, Option.some.injEq,
              Prod.mk.injEq] at h
            obtain ⟨hp, -⟩ := h
            rw [← hp]
            exact ⟨horig _ rfl, strLower_idem _⟩
          · rw [prl_scheme_noegg reqParse line h1 h2 h3 h4
              (by simpa using hegg)] at h
            simp at h
        · by_cases hbase : (pyStrip ((pySplit "#"
              (pyStrip line)).headD "")).data.isEmpty = true
          · rw [prl_base_empty reqParse line h1 h2 h3 h4 hbase] at h
            simp at h
          · rw [prl_standard reqParse line h1 h2 h3 h4
              (by simpa using hbase)] at h
            cases hp : reqParse (pyStrip ((pySplit "#"
                (pyStrip line)).headD "")) with
            | none =>
              rw [show _parse_standard_requirement reqParse
                  (pyStrip ((pySplit "#" (pyStrip line)).headD ""))
                  (pyStrip line) = Except.error (pyStrip ((pySplit "#"
                  (pyStrip line)).headD "")) from by
                simp only [_parse_standard_requirement, hp]] at h
              simp at h
            | some pr =>
              rw [show _parse_standard_requirement reqParse
                  (pyStrip ((pySplit "#" (pyStrip line)).headD ""))
                  (pyStrip line) = Except.ok
                  { name := strLower pr.name, specs := pr.specifier,
                    marker := pr.marker, url := pr.url,
                    original := pyStrip line } from by
                simp only [_parse_standard_requirement, hp]] at h
              simp only [Except.ok.injEq, Option.some.injEq,
                Prod.mk.injEq] at h
              obtain ⟨hp2, -⟩ := h
              rw [← hp2]
              exact ⟨horig _ rfl, strLower_idem _⟩

/-- Witness for C5 at the concrete line `"NumPy"` (parsed with the
plain-name parser): the produced requirement has non-empty `original` and an
idempotently lowercase name. -/
theorem C5_witness : numpyPR.original ≠ "" ∧ strLower numpyPR.name = numpyPR.name :=
  C5_requirement_invariants bareNameParse "NumPy" numpyPR none (by decide)

/-- **C10.** Unlike file-based parsing, the list-of-lines entry point
`parse_requirement_text` does not recover from a malformed entry: whenever a
line parses to a requirement and another raises `InvalidRequirement`, the
whole call on `[valid, invalid]` raises (returns the exception) instead of
returning the valid line's requirement — which is exactly what the
file-based parser returns on the same lines. -/
theorem C10_text_entry_raises (reqParse : String → Option PackagingReq)
    (v b : String) (p : PackageRequirement) (e : String)
    (hv : parse_requirement_line reqParse v = Except.ok (some (some p, none)))
    (hb : parse_requirement_line reqParse b = Except.error e) :
    parse_requirement_text reqParse [v, b] = Except.error e
    ∧ parseRequirementsLines reqParse [v, b] = ([p], []) := by
  constructor
  · simp only [parse_requirement_text, List.foldlM, hv, hb]
    rfl
  · simp [parseRequirementsLines_eq, List.filterMap, pkgOf, idxOf, hv, hb]

/-- Witness for C10: with a grammar rejecting `"bad"`, parsing the lines
`good, bad` through `parse_requirement_text` raises, while the file-based
loop returns the one valid requirement. -/
theorem C10_witness :
    parse_requirement_text failOnBadParse ["good", "bad"]
      = Except.error "bad"
    ∧ parseRequirementsLines failOnBadParse ["good", "bad"]
      = ([{ name := "good", specs := [], marker := none, url := none,
            original := "good" }], []) :=
  C10_text_entry_raises failOnBadParse "good" "bad"
    { name := "good", specs := [], marker := none, url := none,
      original := "good" } "bad" (by decide) (by decide)

theorem pySplit_headD (sep s : String) (c : Char) (rest : List Char)
    (hsep : sep.data = c :: rest) :
    (pySplit sep s).headD "" = String.mk (takeUntilSub sep.data s.data) := by
  unfold pySplit
  rw [hsep]
  show ((splitOnSub c rest s.data).map String.mk).headD ""
    = String.mk (takeUntilSub (c :: rest) s.data)
  rw [splitOnSub_eq]
  cases hbr : breakOnSub (c :: rest) s.data with
  | none => simp [takeUntilSub, hbr]
  | some pq =>
    obtain ⟨pre, post⟩ := pq
    simp [takeUntilSub, hbr]

theorem pySplit_getD1 (sep s : String) (c : Char) (rest : List Char)
    (hsep : sep.data = c :: rest)
    (h : containsSub s sep = true) :
    getD1 (pySplit sep s) =
      String.mk (takeUntilSub sep.data (afterFirstSub sep.data s.data)) := by
  unfold containsSub at h
  rw [hsep] at h
  cases hbr : breakOnSub (c :: rest) s.data with
  | none => rw [hbr] at h; simp at h
  | some pq =>
    obtain ⟨pre, post⟩ := pq
    unfold pySplit
    rw [hsep]
    show getD1 ((splitOnSub c rest s.data).map String.mk)
      = String.mk (takeUntilSub (c :: rest)
          (afterFirstSub (c :: rest) s.data))
    rw [splitOnSub_eq, hbr]
    show getD1 ((pre :: splitOnSub c rest post).map String.mk)
      = String.mk (takeUntilSub (c :: rest) (afterFirstSub (c :: rest) s.data))
    rw [splitOnSub_eq]
    cases hbr2 : breakOnSub (c :: rest) post with
    | none => simp [getD1, afterFirstSub, takeUntilSub, hbr, hbr2]
    | some pq2 =>
      obtain ⟨pre2, post2⟩ := pq2
      simp [getD1, afterFirstSub, takeUntilSub, hbr, hbr2]

theorem egg_name_eq (s : String) (h : containsSub s "#egg=" = true) :
    pyStrip ((pySplit "&" (getD1 (pySplit "#egg=" s))).headD "") =
      pyStrip (eggSegmentSpec s) := by
  rw [pySplit_getD1 "#egg=" s '#' ("egg=" : String).data rfl h]
  rw [pySplit_headD "&" _ '&' [] rfl]
  rfl

theorem scheme_guards {s : String} (h : urlSchemeLine s = true) :
    strStartsWith s "--" = false ∧ strStartsWith s "#" = false
      ∧ s.data.isEmpty = false := by
  have hex : (∃ t, s.data = 'h' :: t) ∨ (∃ t, s.data = 'g' :: t) := by
    simp only [urlSchemeLine, Bool.or_eq_true] at h
    rcases h with (hh | hh) | hh
    · exact Or.inl (startsWith_head
        (show ("http://" : String).data
          = 'h' :: ("ttp://" : String).data from rfl) hh)
    · exact Or.inl (startsWith_head
        (show ("https://" : String).data
          = 'h' :: ("ttps://" : String).data from rfl) hh)
    · exact Or.inr (startsWith_head
        (show ("git+" : String).data
          = 'g' :: ("it+" : String).data from rfl) hh)
  have hhead : ∀ (p : String) (c : Char) (rest : List Char),
      p.data = c :: rest → c ≠ 'h' → c ≠ 'g' →
      strStartsWith s p = false := by
    intro p c rest hp hch hcg
    cases hb : strStartsWith s p with
    | false => rfl
    | true =>
      exfalso
      obtain ⟨t, ht⟩ := startsWith_head hp hb
      rcases hex with ⟨t', ht'⟩ | ⟨t', ht'⟩ <;> rw [ht] at ht' <;>
        simp only [List.cons.injEq] at ht'
      · exact hch ht'.1
      · exact hcg ht'.1
  refine ⟨hhead "--" '-' ("-" : String).data rfl (by decide) (by decide), ?_, ?_⟩
  · exact hhead "#" '#' [] rfl (by decide) (by decide)
  · rcases hex with ⟨t, ht⟩ | ⟨t, ht⟩ <;> simp [ht]

/-- **C6 counterexample.** On the line `"http://x#egg= Foo#egg=z&y "` the
code produces the name `"foo"` — not the claimed raw text after `#egg=` up
to the next `&` (which is `" Foo#egg=z"`) — and `url`/`original` are the
stripped line, not the full line (which ends in a space). -/
theorem C6_counterexample :
    parse_requirement_line bareNameParse eggLine =
      Except.ok (some (some eggLinePR, none))
    ∧ eggLinePR.name ≠ " Foo#egg=z"
    ∧ eggLinePR.original ≠ eggLine
    ∧ eggLinePR.url ≠ some eggLine := by decide

/-- **C6 (amended).** For every line whose stripped text starts with
`http://`, `https://`, or `git+`: if it contains `#egg=`, the parser returns
one `PackageRequirement` whose name is the text after the first `#egg=`,
truncated at the next `#egg=` or `&`, whitespace-trimmed and lowercased;
with an empty spec list, no marker, and `url` and `original` both equal to
the stripped line.  If it contains no `#egg=`, the line produces nothing. -/
theorem C6_egg_name_amended (reqParse : String → Option PackagingReq)
    (line : String) (hscheme : urlSchemeLine (pyStrip line) = true) :
    (containsSub (pyStrip line) "#egg=" = true →
      parse_requirement_line reqParse line = Except.ok (some (some
        { name := strLower (pyStrip (eggSegmentSpec (pyStrip line))),
          specs := [], marker := none, url := some (pyStrip line),
          original := pyStrip line }, none)))
    ∧ (containsSub (pyStrip line) "#egg=" = false →
      parse_requirement_line reqParse line = Except.ok none) := by
  obtain ⟨hdd, hhash, hne⟩ := scheme_guards hscheme
  have h1 : ¬ (((pyStrip line).data.isEmpty
      || strStartsWith (pyStrip line) "#") = true) := by
    simp [hne, hhash]
  have h2 : ¬ (strStartsWith (pyStrip line) "--extra-index-url" = true) := by
    intro hx
    rw [extra_index_startsWith_dashdash hx] at hdd
    simp at hdd
  have h3 : ¬ (strStartsWith (pyStrip line) "--" = true) := by simp [hdd]
  have h4 : (strStartsWith (pyStrip line) "http://"
      || strStartsWith (pyStrip line) "https://"
      || strStartsWith (pyStrip line) "git+") = true := by
    simpa [urlSchemeLine] using hscheme
  constructor
  · intro hegg
    rw [prl_egg reqParse line h1 h2 h3 h4 hegg]
    simp only [_build_requirement, egg_name_eq _ hegg]
  · intro heggf
    exact prl_scheme_noegg reqParse line h1 h2 h3 h4 heggf

/-- Witness for the amended C6 at a concrete egg-carrying VCS line. -/
theorem C6_amended_witness :
    parse_requirement_line bareNameParse "git+https://g/x.git#egg=GitPkg" =
      Except.ok (some (some gitPkgPR, none)) := by
  have h := (C6_egg_name_amended bareNameParse
    "git+https://g/x.git#egg=GitPkg" (by decide)).1 (by decide)
  rw [h]
  decide

theorem collect_strings_foldl (items : List Toml) (acc : List String) :
    (items.foldl
      (fun acc e =>
        match e with
        | Toml.str s => acc ++ [s]
        | _ => acc) acc)
      = acc ++ strEntries items := by
  induction items generalizing acc with
  | nil => simp [strEntries]
  | cons e rest ih =>
    cases e <;> simp [strEntries, List.filterMap_cons, ih]

theorem collect_dependency_strings_eq (v : Toml) :
    _collect_dependency_strings (some v) =
      match v with
      | Toml.list items => strEntries items
      | _ => [] := by
  cases v <;> simp [_collect_dependency_strings]
  exact collect_strings_foldl _ []

theorem groups_foldl (gs : List (String × Toml)) (acc : List String) :
    (gs.foldl
      (fun acc ge => acc ++ _collect_dependency_strings (some ge.2)) acc)
      = acc ++ gs.flatMap groupStrings := by
  induction gs generalizing acc with
  | nil => simp
  | cons g rest ih =>
    rw [List.foldl_cons, ih, collect_dependency_strings_eq]
    cases hg : g.2 <;> simp [groupStrings, hg]

theorem prl_pkg_extra_none (reqParse : String → Option PackagingReq)
    (line : String) (p : PackageRequirement) (u : String)
    (h : parse_requirement_line reqParse line
      = Except.ok (some (some p, some u))) : False := by
  by_cases h1 : (((pyStrip line).data.isEmpty
      || strStartsWith (pyStrip line) "#") = true)
  · rw [prl_blank reqParse line h1] at h; simp at h
  · by_cases h2 : strStartsWith (pyStrip line) "--extra-index-url" = true
    · by_cases hrest : ((((pyStrip line).data.dropWhile
          (fun c => !c.isWhitespace)).dropWhile
          (fun c => c.isWhitespace)).isEmpty) = true
      · rw [prl_extra_nourl reqParse line h1 h2 hrest] at h; simp at h
      · rw [prl_extra_url reqParse line h1 h2 (by simpa using hrest)] at h
        simp at h
    · by_cases h3 : strStartsWith (pyStrip line) "--" = true
      · rw [prl_dashdash reqParse line h1 h2 h3] at h; simp at h
      · by_cases h4 : ((strStartsWith (pyStrip line) "http://"
            || strStartsWith (pyStrip line) "https://"
            || strStartsWith (pyStrip line) "git+") = true)
        · by_cases hegg : containsSub (pyStrip line) "#egg=" = true
          · rw [prl_egg reqParse line h1 h2 h3 h4 hegg] at h; simp at h
          · rw [prl_scheme_noegg reqParse line h1 h2 h3 h4
              (by simpa using hegg)] at h
            simp at h
        · by_cases hbase : (pyStrip ((pySplit "#"
              (pyStrip line)).headD "")).data.isEmpty = true
          · rw [prl_base_empty reqParse line h1 h2 h3 h4 hbase] at h
            simp at h
          · rw [prl_standard reqParse line h1 h2 h3 h4
              (by simpa using hbase)] at h
            cases hp : reqParse (pyStrip ((pySplit "#"
                (pyStrip line)).headD "")) <;>
              simp only [_parse_standard_requirement, hp] at h <;> simp at h

theorem pyproject_reqs_foldl (reqParse : String → Option PackagingReq)
    (ds : List String) (acc : List PackageRequirement) :
    (ds.foldl
      (fun acc entry =>
        match parse_requirement_line reqParse entry with
        | Except.error _ => acc
        | Except.ok none => acc
        | Except.ok (some (some p, _)) => acc ++ [p]
        | Except.ok (some (none, _)) => acc) acc)
      = acc ++ ds.filterMap (pkgOf reqParse) := by
  induction ds generalizing acc with
  | nil => simp
  | cons entry rest ih =>
    rw [List.foldl_cons, ih]
    cases h : parse_requirement_line reqParse entry with
    | error e => simp [pkgOf, h, List.filterMap_cons]
    | ok v =>
      match v with
      | none => simp [pkgOf, h, List.filterMap_cons]
      | some (some p, none) => simp [pkgOf, h, List.filterMap_cons]
      | some (some p, some u) => exact absurd h (by
          intro hc
          exact prl_pkg_extra_none reqParse entry p u hc)
      | some (none, x) =>
        cases x <;> simp [pkgOf, h, List.filterMap_cons]

/-- **C2 counterexample.** `_parse_pyproject` has no caller option for
optional groups and unconditionally parses them: on a manifest with
`dependencies = [numpy, pandas]` and `optional-dependencies = {dev =
[requests]}` it returns three requirements, not the two the claim predicts
for a call that did not request optional groups. -/
theorem C2_counterexample :
    (_parse_pyproject bareNameParse (some (some pyprojectDoc))).map
        (fun r => r.1.map PackageRequirement.name) =
      Except.ok ["numpy", "pandas", "requests"]
    ∧ (["numpy", "pandas", "requests"] : List String)
      ≠ ["numpy", "pandas"] := by
  decide

/-- **C2 (amended).** The manifest parser always processes both
`project.dependencies` and every optional-dependency group (there is no
caller option); the result order is dependencies first, then each optional
group in map-iteration order, with entries within a group in list order,
each entry run through the per-line rule; the extra-index list is empty. -/
theorem C2_optional_groups_amended (reqParse : String → Option PackagingReq)
    (data pt : List (String × Toml)) (ds : List Toml)
    (gs : List (String × Toml))
    (hp : assocGet data "project" = some (Toml.table pt))
    (hd : assocGet pt "dependencies" = some (Toml.list ds))
    (ho : assocGet pt "optional-dependencies" = some (Toml.table gs)) :
    _parse_pyproject reqParse (some (some data)) =
      Except.ok ((strEntries ds ++ gs.flatMap groupStrings).filterMap
        (pkgOf reqParse), []) := by
  simp only [_parse_pyproject]
  rw [hp]
  simp only [Option.getD_some]
  rw [show tomlGet (Toml.table pt) "dependencies"
      = Except.ok (assocGet pt "dependencies") from rfl, hd]
  rw [show tomlGet (Toml.table pt) "optional-dependencies"
      = Except.ok (assocGet pt "optional-dependencies") from rfl, ho]
  simp only [Option.getD_some]
  rw [collect_dependency_strings_eq]
  rcases gs with - | ⟨g0, gtl⟩
  · simp only [Toml.truthy, List.isEmpty_nil, Bool.not_true, if_false,
      List.flatMap_nil, List.append_nil]
    rw [pyproject_reqs_foldl]
    simp
  · simp only [Toml.truthy, List.isEmpty_cons, Bool.not_false, if_true]
    rw [groups_foldl, pyproject_reqs_foldl]
    simp

/-- Witness for the amended C2 at the scenario manifest: dependencies first,
then the `dev` group's entry. -/
theorem C2_amended_witness :
    _parse_pyproject bareNameParse (some (some pyprojectDoc)) =
      Except.ok ((strEntries pyprojectDS
        ++ pyprojectGS.flatMap groupStrings).filterMap
        (pkgOf bareNameParse), []) :=
  C2_optional_groups_amended bareNameParse pyprojectDoc pyprojectPT
    pyprojectDS pyprojectGS rfl rfl rfl

theorem tomlGet_nontable (v : Toml) (k : String)
    (h : ∀ es, v ≠ Toml.table es) :
    tomlGet v k = Except.error "AttributeError" := by
  cases v <;> first | rfl | exact absurd rfl (h _)

/-- **C4 counterexample.** A syntactically valid document whose `project`
key is not a table (here a string) makes `_parse_pyproject` raise an
uncaught `AttributeError` (from `project_table.get("dependencies")`)
instead of returning the claimed empty lists. -/
theorem C4_counterexample :
    _parse_pyproject bareNameParse (some (some badProjectDoc)) =
      Except.error "AttributeError"
    ∧ (Except.error "AttributeError" :
        Except String (List PackageRequirement × List String))
      ≠ Except.ok ([], []) := by decide

/-- **C4 (amended).** A missing or unparsable manifest yields
`([], [])` without raising, and any parsed manifest whose `project` key is
absent or maps to a table returns an empty extra-index list; but a parsed
manifest whose `project` key maps to a non-table value raises
`AttributeError` instead of returning empty lists. -/
theorem C4_manifest_errors_amended (reqParse : String → Option PackagingReq) :
    _parse_pyproject reqParse none = Except.ok ([], [])
    ∧ _parse_pyproject reqParse (some none) = Except.ok ([], [])
    ∧ (∀ data pt, assocGet data "project" = some (Toml.table pt) →
        ∃ reqs, _parse_pyproject reqParse (some (some data))
          = Except.ok (reqs, []))
    ∧ (∀ data, assocGet data "project" = none →
        ∃ reqs, _parse_pyproject reqParse (some (some data))
          = Except.ok (reqs, []))
    ∧ (∀ data v, assocGet data "project" = some v →
        (∀ es, v ≠ Toml.table es) →
        _parse_pyproject reqParse (some (some data))
          = Except.error "AttributeError") := by
  refine ⟨rfl, rfl, ?_, ?_, ?_⟩
  · intro data pt hp
    simp only [_parse_pyproject]
    rw [hp]
    simp only [Option.getD_some]
    rw [show tomlGet (Toml.table pt) "dependencies"
      = Except.ok (assocGet pt "dependencies") from rfl]
    rw [show tomlGet (Toml.table pt) "optional-dependencies"
      = Except.ok (assocGet pt "optional-dependencies") from rfl]
    exact ⟨_, rfl⟩
  · intro data hp
    simp only [_parse_pyproject]
    rw [hp]
    simp only [Option.getD_none]
    rw [show tomlGet (Toml.table []) "dependencies"
      = Except.ok (assocGet [] "dependencies") from rfl]
    rw [show tomlGet (Toml.table []) "optional-dependencies"
      = Except.ok (assocGet [] "optional-dependencies") from rfl]
    exact ⟨_, rfl⟩
  · intro data v hp hv
    simp only [_parse_pyproject]
    rw [hp]
    simp only [Option.getD_some]
    rw [tomlGet_nontable v "dependencies" hv]

/-- Witness for the amended C4: the scenario manifest returns an empty
extra-index list, and a manifest with `project = 3` raises. -/
theorem C4_amended_witness :
    (∃ reqs, _parse_pyproject bareNameParse (some (some pyprojectDoc))
      = Except.ok (reqs, []))
    ∧ _parse_pyproject bareNameParse
        (some (some [("project", Toml.num 3)]))
      = Except.error "AttributeError" :=
  ⟨(C4_manifest_errors_amended bareNameParse).2.2.1 pyprojectDoc
    pyprojectPT rfl,
   (C4_manifest_errors_amended bareNameParse).2.2.2.2
    [("project", Toml.num 3)] (Toml.num 3) rfl (fun es h => by cases h)⟩

theorem dedupeSeen_congr {α β : Type} (key : α → β) [DecidableEq β]
    (l : List α) : ∀ (s1 s2 : List β), (∀ b, b ∈ s1 ↔ b ∈ s2) →
    dedupeSeen key s1 l = dedupeSeen key s2 l := by
  induction l with
  | nil => intro s1 s2 h; rfl
  | cons x xs ih =>
    intro s1 s2 h
    by_cases hx : key x ∈ s1
    · rw [dedupeSeen, dedupeSeen, if_pos hx, if_pos ((h _).mp hx)]
      exact ih s1 s2 h
    · rw [dedupeSeen, dedupeSeen, if_neg hx,
        if_neg (fun hc => hx ((h _).mpr hc))]
      refine congrArg (x :: ·) (ih _ _ fun b => ?_)
      simp only [List.mem_cons]
      exact or_congr Iff.rfl (h b)

theorem dedupeSeen_eq_filter {α β : Type} (key : α → β) [DecidableEq β] :
    ∀ (l : List α) (seen : List β),
    dedupeSeen key seen l
      = dedupeByKey key (l.filter (fun y => key y ∉ seen)) := by
  intro l
  induction l with
  | nil => intro seen; simp [dedupeSeen, dedupeByKey]
  | cons x xs ih =>
    intro seen
    by_cases hx : key x ∈ seen
    · rw [dedupeSeen, if_pos hx, List.filter_cons,
        if_neg (by simpa using hx)]
      exact ih seen
    · rw [dedupeSeen, if_neg hx, List.filter_cons,
        if_pos (by simpa using hx), dedupeByKey, ih (key x :: seen)]
      congr 1
      rw [List.filter_filter]
      refine congrArg (dedupeByKey key) (List.filter_congr fun y hy => ?_)
      simp [List.mem_cons, not_or, Bool.and_comm]

theorem dedupeSeen_nil {α β : Type} (key : α → β) [DecidableEq β]
    (l : List α) : dedupeSeen key [] l = dedupeByKey key l := by
  rw [dedupeSeen_eq_filter]
  congr 1
  simp

theorem mem_of_mem_dedupeByKey {α β : Type} (key : α → β) [DecidableEq β] :
    ∀ (n : Nat) (l : List α), l.length ≤ n →
    ∀ y ∈ dedupeByKey key l, y ∈ l := by
  intro n
  induction n with
  | zero =>
    intro l hl y hy
    cases l with
    | nil => simp [dedupeByKey] at hy
    | cons x xs => simp at hl
  | succ n ih =>
    intro l hl y hy
    cases l with
    | nil => simp [dedupeByKey] at hy
    | cons x xs =>
      rw [dedupeByKey] at hy
      rcases List.mem_cons.mp hy with h | h
      · simp [h]
      · have hlen : (xs.filter (fun y => key y ≠ key x)).length ≤ n := by
          have := List.length_filter_le (fun y => decide (key y ≠ key x)) xs
          simp only [List.length_cons] at hl
          omega
        exact List.mem_cons_of_mem x
          (List.mem_of_mem_filter (ih _ hlen y h))

theorem key_mem_dedupeByKey {α β : Type} (key : α → β) [DecidableEq β] :
    ∀ (n : Nat) (l : List α), l.length ≤ n →
    ∀ b, b ∈ l.map key → b ∈ (dedupeByKey key l).map key := by
  intro n
  induction n with
  | zero =>
    intro l hl b hb
    cases l with
    | nil => simp at hb
    | cons x xs => simp at hl
  | succ n ih =>
    intro l hl b hb
    cases l with
    | nil => simp at hb
    | cons x xs =>
      rw [dedupeByKey]
      by_cases hbx : b = key x
      · simp [hbx]
      · rcases List.mem_map.mp hb with ⟨y, hy, hky⟩
        rcases List.mem_cons.mp hy with h | h
        · exact absurd (by rw [← hky, h]) hbx
        · have hmem : y ∈ xs.filter (fun y => key y ≠ key x) :=
            List.mem_filter.mpr ⟨h, by simp [hky, hbx]⟩
          have hlen : (xs.filter (fun y => key y ≠ key x)).length ≤ n := by
            have := List.length_filter_le (fun y => decide (key y ≠ key x)) xs
            simp only [List.length_cons] at hl
            omega
          have := ih _ hlen b (List.mem_map.mpr ⟨y, hmem, hky⟩)
          simp only [List.map_cons, List.mem_cons]
          exact Or.inr this

theorem countP_dedupeByKey_head {α β : Type} (key : α → β) [DecidableEq β]
    (x : α) (l : List α) :
    ((dedupeByKey key (x :: l)).countP (fun y => decide (key y = key x)))
      = 1 := by
  rw [dedupeByKey, List.countP_cons]
  have h0 : ((dedupeByKey key (l.filter (fun y => key y ≠ key x))).countP
      (fun y => decide (key y = key x))) = 0 := by
    rw [List.countP_eq_zero]
    intro y hy
    have hmem := mem_of_mem_dedupeByKey key
      (l.filter (fun y => key y ≠ key x)).length _ le_rfl y hy
    have hf := List.mem_filter.mp hmem
    simpa using hf.2
  rw [h0]
  simp

theorem addTargets_eq (sys : Sys) :
    ∀ (cands : List (String × String)) (st : TargetState),
    addTargets sys st cands =
      { targets := st.targets
          ++ dedupeSeen Prod.snd st.seen (resolvedCands sys cands),
        seen := st.seen
          ++ (dedupeSeen Prod.snd st.seen
              (resolvedCands sys cands)).map Prod.snd } := by
  intro cands
  induction cands with
  | nil => intro st; simp [addTargets, resolvedCands, dedupeSeen]
  | cons e rest ih =>
    intro st
    have hstep : addTargets sys st (e :: rest)
        = addTargets sys (addTarget sys st e.1 e.2) rest := by
      simp [addTargets]
    rw [hstep]
    unfold addTarget
    by_cases hs : sys.resolve e.2 ∈ st.seen
    · rw [if_pos hs, ih st]
      simp [resolvedCands, dedupeSeen, hs]
    · rw [if_neg hs, ih]
      have hcongr := dedupeSeen_congr Prod.snd
        (resolvedCands sys rest)
        (st.seen ++ [sys.resolve e.2]) (sys.resolve e.2 :: st.seen)
        (by intro b; simp [List.mem_append, List.mem_cons, or_comm])
      simp only [resolvedCands, List.map_cons, dedupeSeen, hs, if_neg hs]
      simp only [resolvedCands] at hcongr
      simp [hcongr]

theorem recordAll_eq (sys : Sys) :
    ∀ (cands : List (String × String)) (cst : CacheState),
    recordAll sys cst cands =
      { records := cst.records
          ++ dedupeSeen Prod.snd cst.seenCached (resolvedCands sys cands),
        seenCached := cst.seenCached
          ++ (dedupeSeen Prod.snd cst.seenCached
              (resolvedCands sys cands)).map Prod.snd } := by
  intro cands
  induction cands with
  | nil => intro cst; simp [recordAll, resolvedCands, dedupeSeen]
  | cons e rest ih =>
    intro cst
    have hstep : recordAll sys cst (e :: rest)
        = recordAll sys (recordCache sys cst e.1 e.2) rest := by
      simp [recordAll]
    rw [hstep]
    unfold recordCache
    by_cases hs : sys.resolve e.2 ∈ cst.seenCached
    · rw [if_pos hs, ih cst]
      simp [resolvedCands, dedupeSeen, hs]
    · rw [if_neg hs, ih]
      have hcongr := dedupeSeen_congr Prod.snd
        (resolvedCands sys rest)
        (cst.seenCached ++ [sys.resolve e.2])
        (sys.resolve e.2 :: cst.seenCached)
        (by intro b; simp [List.mem_append, List.mem_cons, or_comm])
      simp only [resolvedCands, List.map_cons, dedupeSeen, hs, if_neg hs]
      simp only [resolvedCands] at hcongr
      simp [hcongr]

theorem explicit_fold_eq (sys : Sys) :
    ∀ (l : List (Nat × String)) (st : TargetState),
    l.foldl (fun st ip => if sys.pathExists ip.2 then
        addTarget sys st ("python-" ++ toString (ip.1 + 1)) ip.2 else st) st
      = addTargets sys st ((l.filter (fun ip => sys.pathExists ip.2)).map
          (fun ip => ("python-" ++ toString (ip.1 + 1), ip.2))) := by
  intro l
  induction l with
  | nil => intro st; simp [addTargets]
  | cons ip rest ih =>
    intro st
    by_cases h : sys.pathExists ip.2 = true
    · simp only [List.foldl_cons, List.filter_cons, h, if_true, if_pos h,
        List.map_cons, addTargets]
      simpa [addTargets] using
        ih (addTarget sys st ("python-" ++ toString (ip.1 + 1)) ip.2)
    · simp only [List.foldl_cons, List.filter_cons, h,
        Bool.false_eq_true, if_false, if_neg h]
      exact ih st

theorem cached_fold_eq (sys : Sys) :
    ∀ (l : List (String × String)) (st : TargetState) (cst : CacheState),
    l.foldl (fun p entry => if sys.pathExists entry.2 then
        (addTarget sys p.1 entry.1 entry.2,
         recordCache sys p.2 entry.1 entry.2)
      else p) (st, cst)
      = (addTargets sys st (l.filter (fun e => sys.pathExists e.2)),
         recordAll sys cst (l.filter (fun e => sys.pathExists e.2))) := by
  intro l
  induction l with
  | nil => intro st cst; simp [addTargets, recordAll]
  | cons e rest ih =>
    intro st cst
    by_cases h : sys.pathExists e.2 = true
    · simp only [List.foldl_cons, List.filter_cons, h, if_true, if_pos h]
      rw [ih]
      simp [addTargets, recordAll]
    · simp only [List.foldl_cons, List.filter_cons, h,
        Bool.false_eq_true, if_false, if_neg h]
      exact ih st cst

theorem fresh_fold_eq (sys : Sys) :
    ∀ (l : List String) (st : TargetState) (cst : CacheState),
    l.foldl (fun p envPath =>
      match sys.resolvePythonExecutable envPath with
      | none => p
      | some pythonPath =>
        (addTarget sys p.1
          (if (sys.pathName envPath).data.isEmpty then "base"
           else sys.pathName envPath) pythonPath,
         recordCache sys p.2
          (if (sys.pathName envPath).data.isEmpty then "base"
           else sys.pathName envPath) pythonPath)) (st, cst)
      = (addTargets sys st (l.filterMap (fun envPath =>
          (sys.resolvePythonExecutable envPath).map (fun pythonPath =>
            (if (sys.pathName envPath).data.isEmpty then "base"
             else sys.pathName envPath, pythonPath)))),
         recordAll sys cst (l.filterMap (fun envPath =>
          (sys.resolvePythonExecutable envPath).map (fun pythonPath =>
            (if (sys.pathName envPath).data.isEmpty then "base"
             else sys.pathName envPath, pythonPath))))) := by
  intro l
  induction l with
  | nil => intro st cst; simp [addTargets, recordAll]
  | cons envPath rest ih =>
    intro st cst
    cases h : sys.resolvePythonExecutable envPath with
    | none =>
      simp only [List.foldl_cons, List.filterMap_cons, h, Option.map_none']
      exact ih st cst
    | some pythonPath =>
      simp only [List.foldl_cons, List.filterMap_cons, h, Option.map_some']
      rw [ih]
      simp [addTargets, recordAll]

theorem collect_targets_eq (sys : Sys) (includeConda : Bool)
    (condaCandidate : Option String) (explicitPythons : List String)
    (refreshCache : Bool)
    (preloadedCachedEnvs : List (String × String)) :
    _collect_targets sys includeConda condaCandidate explicitPythons
        refreshCache preloadedCachedEnvs =
      { targets := (addTargets sys ⟨[], []⟩ (allCands sys includeConda
          condaCandidate explicitPythons refreshCache
          preloadedCachedEnvs)).targets,
        savedCache := if includeConda then
            some ((recordAll sys ⟨[], []⟩ (condaCands sys condaCandidate
              refreshCache preloadedCachedEnvs)).records)
          else none } := by
  simp only [_collect_targets]
  rw [explicit_fold_eq]
  cases includeConda with
  | false =>
    simp [allCands, explicitCands, addTargets]
  | true =>
    rw [cached_fold_eq]
    cases hc : sys.findCondaExecutable condaCandidate with
    | none =>
      simp [allCands, explicitCands, condaCands, cachedCands, hc,
        addTargets, List.foldl_append]
    | some condaPath =>
      simp only [reduceIte]
      rw [fresh_fold_eq]
      simp [allCands, explicitCands, condaCands, cachedCands,
        freshCands, hc, addTargets, recordAll, List.foldl_append]

theorem collect_targets_targets (sys : Sys) (includeConda : Bool)
    (condaCandidate : Option String) (explicitPythons : List String)
    (refreshCache : Bool)
    (preloadedCachedEnvs : List (String × String)) :
    (_collect_targets sys includeConda condaCandidate explicitPythons
        refreshCache preloadedCachedEnvs).targets =
      dedupeByKey Prod.snd (resolvedCands sys (allCands sys includeConda
        condaCandidate explicitPythons refreshCache
        preloadedCachedEnvs)) := by
  rw [collect_targets_eq, addTargets_eq]
  simp [dedupeSeen_nil]

/-- **C7.** The collected target list is exactly the deduplication (by
resolved interpreter path, first seen wins) of the candidate list ordered
as: the current interpreter first, then explicit `--python` entries in
given order, then conda cached entries followed by freshly scanned ones —
and in particular the current interpreter's resolved path occurs in exactly
one target, so supplying it again as an explicit entry yields exactly one
target for it. -/
theorem C7_target_order_dedup (sys : Sys) (includeConda : Bool)
    (condaCandidate : Option String) (explicitPythons : List String)
    (refreshCache : Bool)
    (preloadedCachedEnvs : List (String × String)) :
    (_collect_targets sys includeConda condaCandidate explicitPythons
        refreshCache preloadedCachedEnvs).targets =
      dedupeByKey Prod.snd (resolvedCands sys (allCands sys includeConda
        condaCandidate explicitPythons refreshCache preloadedCachedEnvs))
    ∧ ((_collect_targets sys includeConda condaCandidate explicitPythons
        refreshCache preloadedCachedEnvs).targets.countP
        (fun t => decide (t.2 = sys.resolve sys.sysExecutable))) = 1 := by
  refine ⟨collect_targets_targets sys includeConda condaCandidate
    explicitPythons refreshCache preloadedCachedEnvs, ?_⟩
  rw [collect_targets_targets]
  have hcons : resolvedCands sys (allCands sys includeConda condaCandidate
      explicitPythons refreshCache preloadedCachedEnvs)
      = ("current", sys.resolve sys.sysExecutable)
        :: resolvedCands sys (explicitCands sys explicitPythons
          ++ (if includeConda then condaCands sys condaCandidate
              refreshCache preloadedCachedEnvs else [])) := rfl
  rw [hcons]
  simpa using countP_dedupeByKey_head Prod.snd
    ("current", sys.resolve sys.sysExecutable) _

/-- **C9.** In a conda-inclusive run the cache written back is exactly the
deduplication (by resolved path, first seen wins) of: the cached entries
whose interpreter paths existed this run (stale entries pruned), followed
by the freshly scanned entries that resolved — cached entries considered
before freshly scanned ones, with no other priority, each stored with its
resolved path. -/
theorem C9_cache_write_back (sys : Sys) (condaCandidate : Option String)
    (explicitPythons : List String) (refreshCache : Bool)
    (preloadedCachedEnvs : List (String × String)) :
    (_collect_targets sys true condaCandidate explicitPythons
        refreshCache preloadedCachedEnvs).savedCache =
      some (dedupeByKey Prod.snd (resolvedCands sys
        (condaCands sys condaCandidate refreshCache
          preloadedCachedEnvs))) := by
  rw [collect_targets_eq, recordAll_eq]
  simp [dedupeSeen_nil]

/-- **C8.** If a custom environment entry `(name, path)` is among the
cached/registered entries and its interpreter path exists, a non-refresh
conda-inclusive run includes a target for that interpreter even when no
conda executable can be found. -/
theorem C8_registered_env_included (sys : Sys) (condaCandidate : Option String)
    (explicitPythons : List String)
    (preloadedCachedEnvs : List (String × String)) (nm p : String)
    (hmem : (nm, p) ∈ sys.loadCachedCondaEnvs ++ preloadedCachedEnvs)
    (hex : sys.pathExists p = true)
    (hconda : sys.findCondaExecutable condaCandidate = none) :
    ∃ nm', (nm', sys.resolve p)
      ∈ (_collect_targets sys true condaCandidate explicitPythons
          false preloadedCachedEnvs).targets := by
  rw [collect_targets_targets]
  have h1 : (nm, p) ∈ cachedCands sys false preloadedCachedEnvs :=
    List.mem_filter.mpr ⟨hmem, hex⟩
  have h2 : (nm, p) ∈ condaCands sys condaCandidate false
      preloadedCachedEnvs := by
    unfold condaCands
    rw [hconda]
    simpa using h1
  have hcand : (nm, p) ∈ allCands sys true condaCandidate explicitPythons
      false preloadedCachedEnvs :=
    List.mem_cons_of_mem _ (List.mem_append_right _ h2)
  have hres : sys.resolve p ∈ (resolvedCands sys (allCands sys true
      condaCandidate explicitPythons false preloadedCachedEnvs)).map
      Prod.snd := by
    refine List.mem_map.mpr ⟨(nm, sys.resolve p), ?_, rfl⟩
    exact List.mem_map.mpr ⟨(nm, p), hcand, rfl⟩
  have hkey := key_mem_dedupeByKey Prod.snd
    (resolvedCands sys (allCands sys true condaCandidate explicitPythons
      false preloadedCachedEnvs)).length _ le_rfl _ hres
  rcases List.mem_map.mp hkey with ⟨y, hy, hky⟩
  refine ⟨y.1, ?_⟩
  have : y = (y.1, sys.resolve p) := by
    rw [← hky]
  rw [← this]
  exact hy

/-- Witness for C8: the registered `gamma` interpreter is in the target
list although conda is unreachable. -/
theorem C8_witness :
    ∃ nm', (nm', sysW.resolve "/g/py")
      ∈ (_collect_targets sysW true none [] false []).targets :=
  C8_registered_env_included sysW none [] [] "gamma" "/g/py"
    (by decide) (by decide) rfl

end Psypyenv
